import Mathlib

/-!
Verification of the greenlight API core (movie store, permission model,
startup configuration, movie handler) against its natural-language
specification.  The Go source is embedded shallowly: SQL statements become
pure functions over lists of rows, `database/sql` errors become an explicit
error type, and `context.WithTimeout` deadlines become per-operation
constants transcribed from the code.
-/

namespace Greenlight

/-- Errors visible to the data layer: `ErrRecordNotFound` declared in
`internal/data/models.go`, and `sql.ErrNoRows` from `database/sql`
(returned raw by `QueryRow(...).Scan` when the query yields no row). -/
inductive DbErr
  | errRecordNotFound
  | errNoRows
deriving DecidableEq

/-- The `Movie` struct of `internal/data/movies.go`.  `CreatedAt` is a
timestamp (modelled as an integer), `Genres` is a Go slice which may be
nil (modelled as `Option`, `none` being the nil slice), `Runtime` is the
`Runtime` integer type, `Version` the optimistic-concurrency column. -/
structure Movie where
  id : Int
  createdAt : Int
  title : String
  year : Int
  runtime : Int
  genres : Option (List String)
  version : Int
deriving DecidableEq

/-- The movies table: a list of rows.  The `id` column is the primary key,
so well-formed tables have pairwise-distinct ids (stated as a hypothesis
where a theorem needs it). -/
abbrev MoviesTable := List Movie

namespace MovieModel

/-- `MovieModel.Get` from `internal/data/movies.go`: ids below 1 return
`ErrRecordNotFound` without querying; otherwise
`SELECT ... FROM movies WHERE id = $1` is run through `QueryRow`, whose
`sql.ErrNoRows` outcome is mapped to `ErrRecordNotFound`. -/
def Get (db : MoviesTable) (id : Int) : Except DbErr Movie :=
  if id < 1 then .error .errRecordNotFound
  else
    match db.filter (fun r => r.id == id) with
    | [] => .error .errRecordNotFound
    | r :: _ => .ok r

/-- The effect of the `UPDATE ... SET title = $1, year = $2, runtime = $3,
genres = $4, version = version + 1` assignment on one matched row. -/
def updatedRow (movie : Movie) (row : Movie) : Movie :=
  { row with title := movie.title, year := movie.year,
             runtime := movie.runtime, genres := movie.genres,
             version := row.version + 1 }

/-- `MovieModel.Update` from `internal/data/movies.go`:
`UPDATE movies SET title=$1, year=$2, runtime=$3, genres=$4,
version = version + 1 WHERE id = $5 RETURNING version`, executed through
`QueryRow(...).Scan(&movie.Version)`.  The `WHERE` clause matches on id
only; when no row matches, `Scan` returns `sql.ErrNoRows`, which `Update`
returns unmapped.  On success the scanned new version is written into the
caller's movie struct. -/
def Update (db : MoviesTable) (movie : Movie) :
    MoviesTable × Except DbErr Movie :=
  match db.filter (fun r => r.id == movie.id) with
  | [] => (db, .error .errNoRows)
  | r :: _ =>
      (db.map (fun row => if row.id == movie.id then updatedRow movie row else row),
       .ok { movie with version := r.version + 1 })

/-- `MovieModel.Delete` from `internal/data/movies.go`: ids below 1 return
`ErrRecordNotFound` without querying; otherwise
`DELETE FROM movies WHERE id = $1` is run through `Exec`, and a zero
`RowsAffected` count is mapped to `ErrRecordNotFound`. -/
def Delete (db : MoviesTable) (id : Int) :
    MoviesTable × Except DbErr Unit :=
  if id < 1 then (db, .error .errRecordNotFound)
  else if db.length = (db.filter (fun r => !(r.id == id))).length then
    (db, .error .errRecordNotFound)
  else (db.filter (fun r => !(r.id == id)), .ok ())

end MovieModel

/-- In a table whose ids are pairwise distinct (the primary-key invariant),
the rows matching a present id form the singleton of that row. -/
theorem filter_id_eq_of_nodup (db : MoviesTable) (r : Movie) (i : Int)
    (hnodup : (db.map Movie.id).Nodup) (hr : r ∈ db) (hid : r.id = i) :
    db.filter (fun x => x.id == i) = [r] := by
  induction db with
  | nil => cases hr
  | cons a t ih =>
    rw [List.map_cons, List.nodup_cons] at hnodup
    obtain ⟨hna, hnt⟩ := hnodup
    rcases List.mem_cons.mp hr with rfl | h
    · rw [List.filter_cons_of_pos (by simp [hid])]
      have h2 : t.filter (fun x => x.id == i) = [] := by
        rw [List.filter_eq_nil_iff]
        intro x hx
        simp only [beq_iff_eq]
        intro hxi
        exact hna (List.mem_map.mpr ⟨x, hx, by rw [hxi, hid]⟩)
      rw [h2]
    · have hai : a.id ≠ i := by
        intro hcontra
        exact hna (by rw [hcontra, ← hid]; exact List.mem_map_of_mem Movie.id h)
      rw [List.filter_cons_of_neg (by simp [hai])]
      exact ih hnt h

/-- A stored movie row used in the update counterexamples: id 1, version 2. -/
def storedRowV2 : Movie :=
  { id := 1, createdAt := 0, title := "old title", year := 2000,
    runtime := 100, genres := some ["drama"], version := 2 }

/-- An update payload for id 1 presenting the stale version 1. -/
def stalePayloadC1 : Movie :=
  { storedRowV2 with title := "retitled by C1", version := 1 }

/-- C1 counterexample: the presented version (1) differs from the stored
version (2), yet `Update` succeeds and overwrites the stored row — the
`WHERE` clause matches on id only, so the stale write is not rejected. -/
theorem update_overwrites_stale_cex :
    stalePayloadC1.version ≠ storedRowV2.version ∧
    (MovieModel.Update [storedRowV2] stalePayloadC1).2 =
      .ok { stalePayloadC1 with version := 3 } ∧
    (MovieModel.Update [storedRowV2] stalePayloadC1).1 =
      [{ storedRowV2 with title := "retitled by C1", version := 3 }] := by
  refine ⟨by decide, by rfl, by rfl⟩

/-- C1 (amended): `Update` matches on id alone and ignores the presented
version.  When a row with the payload's id exists, an update presenting a
stale version succeeds — the row is overwritten with the payload's fields
and its version incremented by 1 — and no edit-conflict error is produced. -/
theorem update_ignores_presented_version (db : MoviesTable) (m r : Movie)
    (hnodup : (db.map Movie.id).Nodup) (hr : r ∈ db) (hid : r.id = m.id)
    (_hstale : m.version ≠ r.version) :
    (∀ v v' : Int, MovieModel.Update db { m with version := v } =
      MovieModel.Update db { m with version := v' }) ∧
    (MovieModel.Update db m).2 = .ok { m with version := r.version + 1 } ∧
    MovieModel.updatedRow m r ∈ (MovieModel.Update db m).1 := by
  have hfilter := filter_id_eq_of_nodup db r m.id hnodup hr hid
  refine ⟨fun v v' => ?_, ?_, ?_⟩
  · have hf : ∀ w : Int, db.filter (fun x => x.id == ({ m with version := w } : Movie).id) = [r] := fun w => hfilter
    simp only [MovieModel.Update, hf]
    rfl
  · simp [MovieModel.Update, hfilter]
  · simp only [MovieModel.Update, hfilter]
    exact List.mem_map.mpr ⟨r, hr, by rw [if_pos (by simp [hid])]⟩

/-- An update payload for id 1 presenting version 1 while version 2 is stored. -/
def mismatchPayloadC2 : Movie :=
  { storedRowV2 with title := "retitled by C2", version := 1 }

/-- C2 counterexample: a record with the payload's id exists at a different
version, yet the outcome is success, not an `EditConflict` failure — the
conditional-update row count never distinguishes the two cases because the
version is not part of the condition, and no edit-conflict error exists in
the code. -/
theorem update_conflict_not_distinguished_cex :
    mismatchPayloadC2.version ≠ storedRowV2.version ∧
    (MovieModel.Update [storedRowV2] mismatchPayloadC2).2 =
      .ok { mismatchPayloadC2 with version := 3 } := by
  refine ⟨by decide, by rfl⟩

/-- C2 (amended): a movie `Update` matches zero rows exactly when no record
with the payload's id exists; in that case the caller receives the raw
`sql.ErrNoRows` error (not `ErrRecordNotFound`), and this is the only
failure `Update` produces — a record existing at a different version is
simply updated, and no edit-conflict outcome exists. -/
theorem update_error_iff_id_absent (db : MoviesTable) (m : Movie) :
    ((MovieModel.Update db m).2 = .error .errNoRows ↔ ∀ r ∈ db, r.id ≠ m.id) ∧
    (∀ e : DbErr, (MovieModel.Update db m).2 = .error e → e = .errNoRows) := by
  constructor
  · unfold MovieModel.Update
    cases hfil : db.filter (fun r => r.id == m.id) with
    | nil =>
      simp only [true_iff]
      rw [List.filter_eq_nil_iff] at hfil
      intro r hr
      have := hfil r hr
      simpa using this
    | cons a t =>
      simp only [reduceCtorEq, false_iff, not_forall]
      have ha : a ∈ db.filter (fun r => r.id == m.id) := by rw [hfil]; exact List.mem_cons_self a t
      rw [List.mem_filter] at ha
      exact ⟨a, ha.1, by simpa using ha.2⟩
  · unfold MovieModel.Update
    cases hfil : db.filter (fun r => r.id == m.id) with
    | nil => intro e he; cases he; rfl
    | cons a t => intro e he; cases he

/-- C3: every successful `Update` increments the stored version by exactly
1: the version scanned back into the caller's movie struct is the previous
stored version plus 1, and the row stored for that id afterwards carries
the previous stored version plus 1. -/
theorem update_increments_version_by_one (db : MoviesTable) (m r : Movie)
    (hnodup : (db.map Movie.id).Nodup) (hr : r ∈ db) (hid : r.id = m.id) :
    (MovieModel.Update db m).2 = .ok { m with version := r.version + 1 } ∧
    ∀ x ∈ (MovieModel.Update db m).1, x.id = m.id → x.version = r.version + 1 := by
  have hfilter := filter_id_eq_of_nodup db r m.id hnodup hr hid
  constructor
  · simp [MovieModel.Update, hfilter]
  · simp only [MovieModel.Update, hfilter]
    intro x hx hxid
    obtain ⟨row, hrow, hfx⟩ := List.mem_map.mp hx
    by_cases hcase : row.id = m.id
    · have hroweq : row = r := by
        exact List.inj_on_of_nodup_map hnodup hrow hr (by rw [hcase, ← hid])
      rw [if_pos (by simp [hcase])] at hfx
      rw [← hfx, hroweq]
      rfl
    · rw [if_neg (by simp [hcase])] at hfx
      exact absurd (hfx ▸ hxid) hcase

/-- C7: over tables whose ids respect the serial primary key (all ids at
least 1), `Get` and `Delete` fail with `ErrRecordNotFound` exactly when no
record with the requested id exists; `Delete` reports not-found exactly
when zero rows were deleted (the table is unchanged); and ids below 1
short-circuit to not-found without touching the table. -/
theorem get_delete_notFound_iff (db : MoviesTable) (id : Int)
    (hids : ∀ m ∈ db, 1 ≤ m.id) :
    (MovieModel.Get db id = .error .errRecordNotFound ↔ ∀ m ∈ db, m.id ≠ id) ∧
    ((MovieModel.Delete db id).2 = .error .errRecordNotFound ↔ ∀ m ∈ db, m.id ≠ id) ∧
    ((MovieModel.Delete db id).2 = .error .errRecordNotFound ↔
      (MovieModel.Delete db id).1 = db) ∧
    (id < 1 → MovieModel.Get db id = .error .errRecordNotFound ∧
      MovieModel.Delete db id = (db, .error .errRecordNotFound)) := by
  by_cases hlt : id < 1
  · have hall : ∀ m ∈ db, m.id ≠ id := by
      intro m hm
      have := hids m hm
      omega
    have hget : MovieModel.Get db id = .error .errRecordNotFound := by
      unfold MovieModel.Get
      rw [if_pos hlt]
    have hdel : MovieModel.Delete db id = (db, .error .errRecordNotFound) := by
      unfold MovieModel.Delete
      rw [if_pos hlt]
    refine ⟨?_, ?_, ?_, fun _ => ⟨hget, hdel⟩⟩
    · rw [hget]
      simp only [true_iff]
      exact hall
    · rw [hdel]
      simp only [true_iff]
      exact hall
    · rw [hdel]
      simp
  · have hget : MovieModel.Get db id =
        (match db.filter (fun r => r.id == id) with
         | [] => .error .errRecordNotFound
         | r :: _ => .ok r) := by
      unfold MovieModel.Get
      rw [if_neg hlt]
    have hgetiff : MovieModel.Get db id = .error .errRecordNotFound ↔
        ∀ m ∈ db, m.id ≠ id := by
      rw [hget]
      cases hfil : db.filter (fun r => r.id == id) with
      | nil =>
        simp only [true_iff]
        rw [List.filter_eq_nil_iff] at hfil
        intro m hm
        simpa using hfil m hm
      | cons a t =>
        simp only [reduceCtorEq, false_iff, not_forall]
        have ha : a ∈ db.filter (fun r => r.id == id) := by
          rw [hfil]
          exact List.mem_cons_self a t
        rw [List.mem_filter] at ha
        exact ⟨a, ha.1, by simpa using ha.2⟩
    by_cases hlen : db.length = (db.filter (fun r => !(r.id == id))).length
    · have heq : db.filter (fun r => !(r.id == id)) = db :=
        (List.filter_sublist db).eq_of_length hlen.symm
      have hall : ∀ m ∈ db, m.id ≠ id := by
        intro m hm
        have := List.filter_eq_self.mp heq m hm
        simpa using this
      have hdel : MovieModel.Delete db id = (db, .error .errRecordNotFound) := by
        unfold MovieModel.Delete
        rw [if_neg hlt, if_pos hlen]
      refine ⟨hgetiff, ?_, ?_, fun hcon => absurd hcon hlt⟩
      · rw [hdel]
        simp only [true_iff]
        exact hall
      · rw [hdel]
        simp
    · have hne : db.filter (fun r => !(r.id == id)) ≠ db := by
        intro hcon
        exact hlen (by rw [hcon])
      have hdel : MovieModel.Delete db id =
          (db.filter (fun r => !(r.id == id)), .ok ()) := by
        unfold MovieModel.Delete
        rw [if_neg hlt, if_neg hlen]
      have hexists : ¬ ∀ m ∈ db, m.id ≠ id := by
        intro hcon
        exact hne (List.filter_eq_self.mpr (fun m hm => by simpa using hcon m hm))
      refine ⟨hgetiff, ?_, ?_, fun hcon => absurd hcon hlt⟩
      · rw [hdel]
        simp only [reduceCtorEq, false_iff]
        exact hexists
      · rw [hdel]
        simp only [reduceCtorEq, false_iff]
        exact hne

/-- The `Permissions` slice of `src/unnamed/part_001`: the permission
codes (like "movies:read") held by a single user. -/
abbrev Permissions := List String

/-- `Permissions.Include` from `src/unnamed/part_001`: a linear scan over
the slice, returning true as soon as an element equals `code`, false when
the loop falls through. -/
def Permissions.Include : Permissions → String → Bool
  | [], _ => false
  | c :: rest, code => if code == c then true else Permissions.Include rest code

/-- The three tables read and written by the permission model:
`users` (only the id column is inspected by the join),
`users_permissions` rows `(user_id, permission_id)`, and
`permissions` rows `(id, code)`. -/
structure PermDB where
  users : List Int
  usersPermissions : List (Int × Int)
  permissions : List (Int × String)
deriving DecidableEq

/-- `PermissionModel.GetAllForUser` from `src/unnamed/part_001`:
`SELECT p.code FROM users u INNER JOIN users_permissions up ON
u.id = up.user_id INNER JOIN permissions p ON up.permission_id = p.id
WHERE u.id = $1`, accumulating the scanned codes into a slice. -/
def PermissionModel.GetAllForUser (db : PermDB) (userID : Int) : Permissions :=
  (db.users.filter (fun u => u == userID)).flatMap (fun u =>
    (db.usersPermissions.filter (fun up => up.1 == u)).flatMap (fun up =>
      (db.permissions.filter (fun q => q.1 == up.2)).map (fun q => q.2)))

/-- `PermissionModel.AddForUser` from `src/unnamed/part_001`:
`INSERT INTO users_permissions SELECT $1, permissions.id FROM permissions
WHERE permissions.code = ANY($2)` run through `ExecContext`; the insert
adds one join row per permission whose code appears in `codes`, and a
zero-row insert is not an error, so the call reports success unless the
database itself fails. -/
def PermissionModel.AddForUser (db : PermDB) (userID : Int)
    (codes : List String) : PermDB × Except DbErr Unit :=
  ({ db with usersPermissions := db.usersPermissions ++
      ((db.permissions.filter (fun q => codes.contains q.2)).map
        (fun q => (userID, q.1))) },
   .ok ())

/-- C6: `Include` is a linear-scan set test — it returns true exactly when
the code occurs in the slice — and `GetAllForUser` returns exactly the
codes reachable from the given user id through the two inner joins: a code
is in the result iff the user row exists and some permission row carrying
that code is linked to the user by a join row. -/
theorem include_iff_mem_and_getAllForUser_exact
    (p : Permissions) (code : String) (db : PermDB) (uid : Int) (c : String) :
    (Permissions.Include p code = true ↔ code ∈ p) ∧
    (c ∈ PermissionModel.GetAllForUser db uid ↔
      uid ∈ db.users ∧ ∃ pid : Int,
        (uid, pid) ∈ db.usersPermissions ∧ (pid, c) ∈ db.permissions) := by
  constructor
  · induction p with
    | nil => simp [Permissions.Include]
    | cons a t ih =>
      simp only [Permissions.Include]
      by_cases hca : code = a
      · simp [hca]
      · rw [if_neg (by simpa using hca)]
        rw [ih]
        simp [List.mem_cons, hca]
  · simp only [PermissionModel.GetAllForUser, List.mem_flatMap,
      List.mem_filter, List.mem_map, beq_iff_eq]
    constructor
    · rintro ⟨u, ⟨hu, rfl⟩, up, ⟨hup, hup1⟩, q, ⟨hq, hq1⟩, hq2⟩
      refine ⟨hu, up.2, ?_, ?_⟩
      · rw [← hup1, Prod.mk.eta]
        exact hup
      · rw [← hq1, ← hq2, Prod.mk.eta]
        exact hq
    · rintro ⟨hu, pid, hup, hq⟩
      exact ⟨uid, ⟨hu, rfl⟩, (uid, pid), ⟨hup, rfl⟩, (pid, c), ⟨hq, rfl⟩, rfl⟩

/-- C9: `AddForUser` reports success whatever the codes are, and when none
of the given codes matches a row of the permissions table the insert adds
no join row at all — unknown codes are silently skipped, so a nil error
does not imply any permission was granted. -/
theorem addForUser_silently_skips_unknown_codes
    (db : PermDB) (uid : Int) (codes : List String) :
    (PermissionModel.AddForUser db uid codes).2 = .ok () ∧
    ((∀ c ∈ codes, ∀ q ∈ db.permissions, q.2 ≠ c) →
      (PermissionModel.AddForUser db uid codes).1 = db) := by
  refine ⟨rfl, fun h => ?_⟩
  have hfil : db.permissions.filter (fun q => codes.contains q.2) = [] := by
    rw [List.filter_eq_nil_iff]
    intro q hq
    intro hcontra
    exact h q.2 (List.elem_iff.mp hcontra) q hq rfl
  simp only [PermissionModel.AddForUser, hfil, List.map_nil, List.append_nil]

/-- A concrete permission database: user 7 exists, the permissions table
holds one row with code "movies:read", and no permission is granted yet. -/
def permDBOne : PermDB :=
  { users := [7], usersPermissions := [], permissions := [(1, "movies:read")] }

/-- Witness for C9: granting the unknown code "movies:write" to user 7
succeeds yet leaves the database unchanged. -/
theorem addForUser_silently_skips_unknown_codes_witness :
    (PermissionModel.AddForUser permDBOne 7 ["movies:write"]).1 = permDBOne ∧
    (PermissionModel.AddForUser permDBOne 7 ["movies:write"]).2 = .ok () :=
  ⟨(addForUser_silently_skips_unknown_codes permDBOne 7 ["movies:write"]).2
      (by decide),
   (addForUser_silently_skips_unknown_codes permDBOne 7 ["movies:write"]).1⟩

/-- A stored movie row with id 1, used as the concrete table for the
`Get`/`Delete` witness. -/
def movieRowOne : Movie :=
  { id := 1, createdAt := 0, title := "stored", year := 2000,
    runtime := 100, genres := some ["drama"], version := 1 }

/-- Witness for C7 at the concrete table `[movieRowOne]` and id 2. -/
theorem get_delete_notFound_iff_witness :
    MovieModel.Get [movieRowOne] 2 = .error .errRecordNotFound ∧
    (MovieModel.Delete [movieRowOne] 2).2 = .error .errRecordNotFound :=
  ⟨(get_delete_notFound_iff [movieRowOne] 2 (by decide)).1.mpr (by decide),
   (get_delete_notFound_iff [movieRowOne] 2 (by decide)).2.1.mpr (by decide)⟩

/-- Deadline (in seconds) bound to the database round-trip of
`PermissionModel.GetAllForUser`: the query runs through `QueryContext`
under `context.WithTimeout(context.Background(), 3*time.Second)`.
`some n` means a deadline of `n` seconds; `none` means the operation runs
with no deadline at all. -/
def getAllForUserDeadlineSeconds : Option Nat := some 3

/-- Deadline bound to `PermissionModel.AddForUser`: `ExecContext` under a
3-second `context.WithTimeout`. -/
def addForUserDeadlineSeconds : Option Nat := some 3

/-- Deadline bound to `MovieModel.Insert`: the query runs through the
plain `QueryRow` with no context, hence no deadline. -/
def movieInsertDeadlineSeconds : Option Nat := none

/-- Deadline bound to `MovieModel.Get`: plain `QueryRow`, no context,
no deadline. -/
def movieGetDeadlineSeconds : Option Nat := none

/-- Deadline bound to `MovieModel.Update` (the version-carrying movie
write): plain `QueryRow`, no context, no deadline. -/
def movieUpdateDeadlineSeconds : Option Nat := none

/-- Deadline bound to `MovieModel.Delete`: plain `Exec`, no context,
no deadline. -/
def movieDeleteDeadlineSeconds : Option Nat := none

/-- C4 counterexample: the movie write — one of the externally-bound
operations the claim covers — carries no deadline at all, so exceeding any
amount of time never aborts it. -/
theorem movie_write_has_no_deadline_cex :
    movieUpdateDeadlineSeconds = none := rfl

/-- C4 (amended): only the permission-model operations are bound to a
deadline (3 seconds each); the movie-model operations — including the
version-carrying movie write — run with no deadline. -/
theorem deadlines_per_operation :
    getAllForUserDeadlineSeconds = some 3 ∧
    addForUserDeadlineSeconds = some 3 ∧
    movieInsertDeadlineSeconds = none ∧
    movieGetDeadlineSeconds = none ∧
    movieUpdateDeadlineSeconds = none ∧
    movieDeleteDeadlineSeconds = none :=
  ⟨rfl, rfl, rfl, rfl, rfl, rfl⟩

/-- The limiter section of the `Config` struct in `src/cmd/api/main.go`:
requests per second (a float, modelled as a rational), burst (an int) and
the enabled flag. -/
structure LimiterConfig where
  rps : Rat
  burst : Int
  enabled : Bool
deriving DecidableEq

/-- The limiter flag registrations of `main`
(`flag.Float64Var(&cfg.limiter.rps, "limiter-rps", 2, ...)` etc.): each
flag takes the command-line value when supplied and its default
(rps 2, burst 4, enabled true) otherwise.  No constraint is placed on the
supplied values. -/
def parseLimiterFlags (rpsFlag : Option Rat) (burstFlag : Option Int)
    (enabledFlag : Option Bool) : LimiterConfig :=
  { rps := rpsFlag.getD 2, burst := burstFlag.getD 4,
    enabled := enabledFlag.getD true }

/-- Outcome of `main` up to `app.Serve()`: a fatal log-and-exit, the
version-flag early exit, or serving with the assembled limiter config. -/
inductive StartupResult
  | fatal (message : String)
  | versionExit
  | serve (limiter : LimiterConfig)
deriving DecidableEq

/-- The startup control flow of `main` in `src/cmd/api/main.go`:
`godotenv.Load` failure is fatal; then flags are parsed; the `-version`
flag exits early; `openDB` failure is fatal (the logged message is the
driver's error, abstracted here to a label); otherwise the Application is
built from the config as parsed and `Serve` runs.  No branch of `main`
examines the limiter values. -/
def mainStartup (envLoadOk : Bool) (displayVersion : Bool) (dbOpenOk : Bool)
    (rpsFlag : Option Rat) (burstFlag : Option Int) (enabledFlag : Option Bool) :
    StartupResult :=
  if !envLoadOk then .fatal ("error loading .env file")
  else if displayVersion then .versionExit
  else if !dbOpenOk then .fatal ("openDB failed")
  else .serve (parseLimiterFlags rpsFlag burstFlag enabledFlag)

/-- C5 counterexample: a configuration with rps = 0 (not > 0) and
burst = 0 (below 1) is accepted — startup proceeds to serve with it
instead of rejecting it. -/
theorem limiter_config_not_validated_cex :
    ¬ (0 : Rat) > 0 ∧ (0 : Int) < 1 ∧
    mainStartup true false true (some 0) (some 0) (some true) =
      .serve { rps := 0, burst := 0, enabled := true } :=
  ⟨by norm_num, by norm_num, rfl⟩

/-- C5 (amended): the rate-limit configuration is read from command-line
flags with defaults rps = 2, burst = 4, enabled = true, and is not
validated at startup: whenever the environment file loads and the database
opens, startup serves with whatever limiter values were supplied,
including rps ≤ 0 or burst < 1. -/
theorem startup_accepts_any_limiter_config
    (r : Option Rat) (b : Option Int) (e : Option Bool) :
    mainStartup true false true r b e = .serve (parseLimiterFlags r b e) ∧
    parseLimiterFlags none none none =
      { rps := 2, burst := 4, enabled := true } :=
  ⟨rfl, rfl⟩

/-- Responses the movie handler can produce: the router's not-found
response, or a JSON envelope written with an HTTP status code and the
movie payload. -/
inductive MovieResponse
  | notFound
  | json (status : Nat) (movie : Movie)
deriving DecidableEq

/-- `getMovieHandler` from `src/cmd/api/main.go`: when the id parameter
fails to parse (`none`) or is below 1, it replies not-found; otherwise it
writes `http.StatusCreated` (201) with a movie built from the echoed id,
`time.Now()` (the `now` argument), the fixed title "Casablanca", the Year
field deliberately left unset (Go zero value 0), runtime 102, genres
drama/romance/war, and version 1. -/
def getMovieHandler (now : Int) (idParam : Option Int) : MovieResponse :=
  match idParam with
  | none => .notFound
  | some id =>
    if id < 1 then .notFound
    else .json 201
      { id := id, createdAt := now, title := "Casablanca", year := 0,
        runtime := 102, genres := some ["drama", "romance", "war"],
        version := 1 }

/-- C8: for every id parameter that parses and is at least 1, the handler
responds 201 with the same fixed movie varying only in the echoed id (and
the request timestamp), independent of any stored data; unparsable ids and
ids below 1 get the not-found response. -/
theorem getMovieHandler_fixed_response (now : Int) (id : Int) :
    (1 ≤ id → getMovieHandler now (some id) = .json 201
      { id := id, createdAt := now, title := "Casablanca", year := 0,
        runtime := 102, genres := some ["drama", "romance", "war"],
        version := 1 }) ∧
    (id < 1 → getMovieHandler now (some id) = .notFound) ∧
    getMovieHandler now none = .notFound := by
  refine ⟨fun h => ?_, fun h => ?_, rfl⟩
  · simp only [getMovieHandler]
    rw [if_neg (by omega)]
  · simp only [getMovieHandler]
    rw [if_pos h]

/-- Witness for C8 at ids 5 (parsed, in range) and 0 (below 1). -/
theorem getMovieHandler_fixed_response_witness :
    getMovieHandler 0 (some 5) = .json 201
      { id := 5, createdAt := 0, title := "Casablanca", year := 0,
        runtime := 102, genres := some ["drama", "romance", "war"],
        version := 1 } ∧
    getMovieHandler 0 (some 0) = .notFound ∧
    getMovieHandler 0 none = .notFound :=
  ⟨(getMovieHandler_fixed_response 0 5).1 (by norm_num),
   (getMovieHandler_fixed_response 0 0).2.1 (by norm_num),
   (getMovieHandler_fixed_response 0 0).2.2⟩

/-- Witness for the amended C1 at the concrete table `[storedRowV2]` and
the stale payload: the update succeeds with version 3 and the overwritten
row is stored. -/
theorem update_ignores_presented_version_witness :
    (MovieModel.Update [storedRowV2] stalePayloadC1).2 =
      .ok { stalePayloadC1 with version := storedRowV2.version + 1 } ∧
    MovieModel.updatedRow stalePayloadC1 storedRowV2 ∈
      (MovieModel.Update [storedRowV2] stalePayloadC1).1 :=
  ⟨(update_ignores_presented_version [storedRowV2] stalePayloadC1 storedRowV2
      (by decide) (by decide) rfl (by decide)).2.1,
   (update_ignores_presented_version [storedRowV2] stalePayloadC1 storedRowV2
      (by decide) (by decide) rfl (by decide)).2.2⟩

/-- Witness for the amended C2 at the empty table: updating a nonexistent
id yields the raw no-rows error. -/
theorem update_error_iff_id_absent_witness :
    (MovieModel.Update [] mismatchPayloadC2).2 = .error .errNoRows :=
  (update_error_iff_id_absent [] mismatchPayloadC2).1.mpr (by simp)

/-- An update payload for id 1 presenting the current version 2, used in
the C3 witness. -/
def payloadC3 : Movie :=
  { storedRowV2 with title := "retitled by C3" }

/-- Witness for C3 at the concrete table `[storedRowV2]`: the successful
update returns version 3 = stored version 2 plus 1. -/
theorem update_increments_version_by_one_witness :
    (MovieModel.Update [storedRowV2] payloadC3).2 =
      .ok { payloadC3 with version := storedRowV2.version + 1 } :=
  (update_increments_version_by_one [storedRowV2] payloadC3 storedRowV2
      (by decide) (by decide) rfl).1

/-- Modelled from the spec: the validator package (`internal/validator`)
is not under src — only its call sites in `ValidateMovie` are.  A
`Validator` carries the recorded validation errors keyed by field name. -/
structure Validator where
  errors : List (String × String)
deriving DecidableEq

/-- Modelled from the spec: `Validator.Check` records the message under
the given key when the condition is false (keeping the first message
recorded per key), and leaves the validator unchanged when the condition
holds. -/
def Validator.Check (v : Validator) (ok : Bool) (key message : String) :
    Validator :=
  if ok then v
  else if v.errors.any (fun e => e.1 == key) then v
  else { errors := v.errors ++ [(key, message)] }

/-- Modelled from the spec: `validator.Unique` returns true exactly when
all values in the slice are pairwise distinct (per the comment at its call
site: the helper checks that all values in the Genres slice are unique). -/
def Unique : List String → Bool
  | [] => true
  | a :: rest => !(rest.contains a) && Unique rest

/-- `ValidateMovie` from `internal/data/movies.go`: the eleven checks in
source order; `currentYear` stands for `time.Now().Year()`, and the byte
length of the title is its UTF-8 size, as Go's `len` on a string. -/
def ValidateMovie (currentYear : Int) (m : Movie) (v : Validator) :
    Validator :=
  ((((((((((v.Check (!(m.title == "")) ("title")
    ("must be provided")).Check
    (decide (m.title.utf8ByteSize ≤ 500)) ("title")
    ("must not be more than 500 bytes long")).Check
    (!(m.year == 0)) ("year") ("must be provided")).Check
    (decide (1888 ≤ m.year)) ("year") ("must be greater than 1888")).Check
    (decide (m.year ≤ currentYear)) ("year")
    ("must not be in the future")).Check
    (!(m.runtime == 0)) ("runtime") ("must be provided")).Check
    (decide (0 < m.runtime)) ("runtime")
    ("must be a positive integer")).Check
    (!(m.genres == none)) ("genres") ("must be provided")).Check
    (decide (1 ≤ (m.genres.getD []).length)) ("genres")
    ("must contain at least 1 genre")).Check
    (decide ((m.genres.getD []).length ≤ 5)) ("genres")
    ("must not contain more than 5 genres")).Check
    (Unique (m.genres.getD [])) ("genres")
    ("must not contain duplicate values")

/-- A single `Check` leaves no recorded errors exactly when there were
none before and the condition held. -/
theorem check_errors_nil (v : Validator) (ok : Bool) (key message : String) :
    (Validator.Check v ok key message).errors = [] ↔
      v.errors = [] ∧ ok = true := by
  cases ok with
  | true => simp [Validator.Check]
  | false =>
    simp only [Validator.Check, Bool.false_eq_true, if_false, and_false,
      iff_false]
    by_cases hany : v.errors.any (fun e => e.1 == key) = true
    · rw [if_pos hany]
      intro hnil
      rw [hnil] at hany
      simp at hany
    · rw [if_neg hany]
      simp

/-- The modelled `Unique` agrees with pairwise distinctness. -/
theorem unique_iff_nodup (l : List String) : Unique l = true ↔ l.Nodup := by
  induction l with
  | nil => simp [Unique]
  | cons a t ih =>
    simp [Unique, List.nodup_cons, ih, List.elem_iff]

/-- C10: starting from a fresh validator, `ValidateMovie` records no
errors exactly when the title is non-empty and at most 500 bytes, the year
lies between 1888 and the current year, the runtime is positive, and the
genres slice is non-nil with 1 to 5 pairwise-distinct entries.  (The
"must be provided" checks on year and runtime are subsumed by the range
checks.) -/
theorem validateMovie_no_errors_iff (currentYear : Int) (m : Movie) :
    (ValidateMovie currentYear m { errors := [] }).errors = [] ↔
      (m.title ≠ "" ∧ m.title.utf8ByteSize ≤ 500 ∧
       1888 ≤ m.year ∧ m.year ≤ currentYear ∧
       0 < m.runtime ∧
       m.genres ≠ none ∧ 1 ≤ (m.genres.getD []).length ∧
       (m.genres.getD []).length ≤ 5 ∧ (m.genres.getD []).Nodup) := by
  simp only [ValidateMovie, check_errors_nil, and_assoc, and_true,
    true_and, decide_eq_true_eq, Bool.not_eq_true', beq_eq_false_iff_ne,
    unique_iff_nodup]
  constructor
  · rintro ⟨h1, h2, _h3, h4, h5, _h6, h7, h8, h9, h10, h11⟩
    exact ⟨h1, h2, h4, h5, h7, h8, h9, h10, h11⟩
  · rintro ⟨h1, h2, h4, h5, h7, h8, h9, h10, h11⟩
    exact ⟨h1, h2, by omega, h4, h5, by omega, h7, h8, h9, h10, h11⟩

end Greenlight
